import Mathlib

/-!
Shallow embedding of the live capture/streaming session manager
(`useLiveSession` hook together with the audio utility module).

Numbers: JavaScript floating-point samples and sample rates are modelled by
exact rationals (`ℚ`); every concrete input used in the theorems below is a
small dyadic value on which JavaScript double arithmetic is exact, so the
rational model and the source agree on those inputs.  Machine `Int16Array`
storage is modelled by `ℤ` together with an explicit range theorem.
Nullable JavaScript refs are modelled by `Bool` (`true` = non-null).
-/

namespace LiveSession

/-- The `SessionStatus` enumeration from `types.ts`. -/
inductive SessionStatus
  | IDLE
  | CONNECTING
  | RECORDING
  | PAUSED
  | PROCESSING
  | COMPLETED
  | ERROR
  deriving DecidableEq

/-- The `role` field of a transcript item (`'user' | 'model'`). -/
inductive Role
  | user
  | model
  deriving DecidableEq

/-- `TranscriptItem` from `types.ts`.  The source's optional `isPartial`
boolean (absent means false) is modelled by the mandatory Bool field
`isPending`; `Date.now()` and `new Date()` are modelled as a `Nat` clock. -/
structure TranscriptItem where
  id : String
  role : Role
  text : String
  timestamp : Nat
  isPending : Bool
  deriving DecidableEq

/-- The fields of an inbound `LiveServerMessage` that `onmessage` consumes:
`serverContent.inputTranscription.text` (with `""` standing for an absent or
empty — hence falsy — text) and `serverContent.turnComplete`, plus the value
of `Date.now()` at handling time. -/
structure ServerMessage where
  inputTx : String
  turnComplete : Bool
  now : Nat
  deriving DecidableEq

/-- The mutable state of one `useLiveSession` hook instance: the React states
(`status`, `transcript`, `volume`, `error`) and the refs (`sessionRef`,
`audioContextRef`, `mediaStreamRef`, `processorRef`, `isPausedRef`,
`audioAccumulatorRef`, `currentTurnRef`).  Handle refs are `Bool`
(non-null?). -/
structure SessionState where
  status : SessionStatus
  sessionRef : Bool
  audioContextRef : Bool
  mediaStreamRef : Bool
  processorRef : Bool
  isPaused : Bool
  audioAccumulator : List ℚ
  volume : ℚ
  error : Option String
  transcript : List TranscriptItem
  currentTurn : String
  deriving DecidableEq

/-- The hook's initial state: status `IDLE`, empty transcript, all refs null. -/
def initialState : SessionState where
  status := SessionStatus.IDLE
  sessionRef := false
  audioContextRef := false
  mediaStreamRef := false
  processorRef := false
  isPaused := false
  audioAccumulator := []
  volume := 0
  error := none
  transcript := []
  currentTurn := ""

/-! ## Resampler (`resampleBuffer` in `utils/audio.ts`) -/

/-- `resampleBuffer(buffer, inputRate, outputRate)`: linear-interpolation
resampling, translated line by line.  `buffer[index] || 0` is the
zero-defaulting read (`List.getD`; note `|| 0` maps both an out-of-bounds
read and a stored `0` to `0`).  For the rates the claims quantify over
(positive), the loop only ever runs with `ratio > 0`, hence `index ≥ 0`. -/
def resampleBuffer (buffer : List ℚ) (inputRate outputRate : ℚ) : List ℚ :=
  if inputRate = outputRate then buffer
  else
    let ratio := inputRate / outputRate
    let newLength := (⌊(buffer.length : ℚ) / ratio⌋).toNat
    (List.range newLength).map (fun (i : ℕ) =>
      let inputIndex : ℚ := (i : ℚ) * ratio
      let index : ℤ := ⌊inputIndex⌋
      let decimal : ℚ := inputIndex - (index : ℚ)
      let p0 : ℚ := if 0 ≤ index then buffer.getD index.toNat 0 else 0
      let p1 : ℚ := if index + 1 < (buffer.length : ℤ) then buffer.getD (index + 1).toNat 0 else p0
      p0 + (p1 - p0) * decimal)

/-! ## Frame encoder (`createPcmBlob` in `utils/audio.ts`) -/

/-- Truncation toward zero: the integer conversion JavaScript applies when a
number is stored into an `Int16Array` (`ToIntegerOrInfinity`).  All values
produced by `createPcmSample` lie within the signed 16-bit range, so the
subsequent `mod 2^16` wrap of `ToInt16` is the identity (proved below). -/
def truncToward0 (q : ℚ) : ℤ :=
  if 0 ≤ q then ⌊q⌋ else ⌈q⌉

/-- The per-sample body of `createPcmBlob`: clamp to `[-1, 1]`, then scale a
negative value by `0x8000 = 32768` and a non-negative one by
`0x7FFF = 32767`, and store into an `Int16Array` slot. -/
def createPcmSample (x : ℚ) : ℤ :=
  let s := max (-1) (min 1 x)
  if s < 0 then truncToward0 (s * 32768) else truncToward0 (s * 32767)

/-- The `Int16Array` built by `createPcmBlob` (its little-endian base64
serialization and mime tag are carried unchanged afterwards and are not
needed by any claim). -/
def createPcmInt16 (data : List ℚ) : List ℤ :=
  data.map createPcmSample

/-- The clamp step of `createPcmSample`, named so theorems can speak about
it: `Math.max(-1, Math.min(1, x))`. -/
def clampSample (x : ℚ) : ℚ :=
  max (-1) (min 1 x)

/-! ## Chunk accumulator (lines 168–181 of the hook, inside `onaudioprocess`) -/

/-- One callback's accumulator update: append the resampled block to
`audioAccumulatorRef.current`; if the result holds at least 2048 samples,
send the **whole** accumulated buffer (`chunkToSend`) and reset the
accumulator to empty.  Returns (new accumulator, chunk sent if any). -/
def accumulateBlock (acc resampled : List ℚ) : List ℚ × Option (List ℚ) :=
  let newBuffer := acc ++ resampled
  if 2048 ≤ newBuffer.length then ([], some newBuffer) else (newBuffer, none)

/-- One step of driving the accumulator: feed a block to `accumulateBlock`
and append the emitted chunk (if any) to the trace of sent chunks. -/
def accumStep (st : List ℚ × List (List ℚ)) (block : List ℚ) :
    List ℚ × List (List ℚ) :=
  let next := accumulateBlock st.1 block
  (next.1, st.2 ++ next.2.toList)

/-- Run a sequence of resampled callback blocks through the accumulator,
starting from an empty residual, collecting the emitted chunks in order. -/
def runBlocks (blocks : List (List ℚ)) : List ℚ × List (List ℚ) :=
  blocks.foldl accumStep ([], [])

/-! ## Transcript merger (the `onmessage` callback, hook lines 187–222) -/

/-- The transcript update performed inside `setTranscript` when a non-empty
`inputTranscription.text` arrived: if the last item is a user item still
marked partial (`last && last.role === 'user' && last.isPartial`), overwrite
its text in place with the full accumulated turn text; otherwise push a new
item marked partial, stamped with `Date.now()`. -/
def pushOrUpdate (transcript : List TranscriptItem) (turn : String) (now : Nat) :
    List TranscriptItem :=
  match transcript.getLast? with
  | some last =>
      if last.role = Role.user ∧ last.isPending = true then
        transcript.dropLast ++ [{ last with text := turn }]
      else
        transcript ++ [⟨toString now, Role.user, turn, now, true⟩]
  | none => transcript ++ [⟨toString now, Role.user, turn, now, true⟩]

/-- The `onmessage` handler: if `inputTranscription.text` is truthy (i.e.
non-empty), first extend `currentTurnRef.current.user` with it and update
the transcript; then, if `turnComplete` is set, clear every item's partial
flag and reset the pending turn to empty. -/
def onmessage (s : SessionState) (m : ServerMessage) : SessionState :=
  let s1 :=
    if m.inputTx = "" then s
    else
      let turn := s.currentTurn ++ m.inputTx
      { s with currentTurn := turn, transcript := pushOrUpdate s.transcript turn m.now }
  if m.turnComplete then
    { s1 with
        transcript := s1.transcript.map (fun it => { it with isPending := false }),
        currentTurn := "" }
  else s1

/-- Apply a sequence of inbound messages in arrival order. -/
def runMessages (s : SessionState) (ms : List ServerMessage) : SessionState :=
  ms.foldl onmessage s

/-- Whether the transcript's last item is a user item still marked partial
(the branch condition of `pushOrUpdate`). -/
def lastIsOpenPending (l : List TranscriptItem) : Bool :=
  match l.getLast? with
  | some last => last.role = Role.user ∧ last.isPending = true
  | none => false

/-- The partial flag of the transcript's last item (`false` when empty). -/
def lastPendingFlag (l : List TranscriptItem) : Bool :=
  match l.getLast? with
  | some last => last.isPending
  | none => false

/-- Whether a speaker turn is open after a sequence of messages: a non-empty
partial text has arrived since the most recent turn-completion signal
(a message carrying both closes the turn, matching the handler's order). -/
def turnOpen (ms : List ServerMessage) : Bool :=
  ms.foldl (fun b m => if m.turnComplete then false else (b || (m.inputTx != ""))) false

/-! ## Session state machine: `pause`, `resume`, `disconnect`, `connect` -/

/-- `pause()`: only acts when the status is `RECORDING`; sets the paused
flag, moves to `PAUSED` and resets the volume visualizer. -/
def pause (s : SessionState) : SessionState :=
  if s.status = SessionStatus.RECORDING then
    { s with isPaused := true, status := SessionStatus.PAUSED, volume := 0 }
  else s

/-- `resume()`: only acts when the status is `PAUSED`; clears the paused
flag and returns to `RECORDING`. -/
def resume (s : SessionState) : SessionState :=
  if s.status = SessionStatus.PAUSED then
    { s with isPaused := false, status := SessionStatus.RECORDING }
  else s

/-- Which teardown operations fail when invoked during `disconnect()`:
`session.close()` throwing, some `track.stop()` throwing,
`processor.disconnect()` throwing, and the `audioContext.close()` promise
rejecting (the rejection is asynchronous and handled by `.catch`). -/
structure TeardownBehavior where
  closeFails : Bool
  stopFails : Bool
  nodeDisconnectFails : Bool
  ctxCloseFails : Bool
  deriving DecidableEq

/-- The behavior in which every teardown operation succeeds. -/
def benignTeardown : TeardownBehavior := ⟨false, false, false, false⟩

/-- The four release steps of `disconnect()`, in source order. -/
inductive TeardownStep
  | closeSession
  | stopTracks
  | disconnectNode
  | closeContext
  deriving DecidableEq

/-- Outcome of one `disconnect()` call: the resulting hook state, whether an
exception propagated out of the call, and which release steps were actually
invoked (a step counts as invoked when its handle ref was non-null and
control reached it). -/
structure DisconnectResult where
  state : SessionState
  thrown : Bool
  attempted : List TeardownStep
  deriving DecidableEq

/-- Step 4 of `disconnect()` (`audioContextRef.current.close().catch(...)`)
plus the trailing state updates.  `close()` is invoked when the ref is
non-null (and its state is not already closed); a rejection is consumed by
`.catch(console.error)` and never propagates.  Afterwards the paused flag,
accumulator, status and volume updates run: status becomes `COMPLETED` only
from `RECORDING`/`PAUSED`. -/
def disconnectStep4 (s : SessionState) (att : List TeardownStep) :
    DisconnectResult :=
  let att4 := if s.audioContextRef then att ++ [TeardownStep.closeContext] else att
  ⟨{ s with
      audioContextRef := false,
      isPaused := false,
      audioAccumulator := [],
      status :=
        if s.status = SessionStatus.RECORDING ∨ s.status = SessionStatus.PAUSED then
          SessionStatus.COMPLETED
        else s.status,
      volume := 0 },
    false, att4⟩

/-- Step 3 of `disconnect()` (`processorRef.current.disconnect()`), which is
**not** wrapped in `try/catch`: a throw propagates, skipping everything
after it. -/
def disconnectStep3 (b : TeardownBehavior) (s : SessionState)
    (att : List TeardownStep) : DisconnectResult :=
  if s.processorRef then
    if b.nodeDisconnectFails then ⟨s, true, att ++ [TeardownStep.disconnectNode]⟩
    else disconnectStep4 { s with processorRef := false } (att ++ [TeardownStep.disconnectNode])
  else disconnectStep4 s att

/-- `disconnect()`.  Step 1 (`sessionRef.current.close()`) is wrapped in
`try { ... } catch { console.warn }`, so `closeFails` is swallowed and the
ref is nulled regardless.  Step 2 (`track.stop()` inside `forEach`) is
**not** wrapped: a throw propagates out of `disconnect()` before
`mediaStreamRef` is nulled, and no later step runs. -/
def disconnect (b : TeardownBehavior) (s : SessionState) : DisconnectResult :=
  let att1 := if s.sessionRef then [TeardownStep.closeSession] else []
  let s1 := { s with sessionRef := false }
  if s1.mediaStreamRef then
    if b.stopFails then ⟨s1, true, att1 ++ [TeardownStep.stopTracks]⟩
    else disconnectStep3 b { s1 with mediaStreamRef := false } (att1 ++ [TeardownStep.stopTracks])
  else disconnectStep3 b s1 att1

/-- The release steps `disconnect()` is expected to invoke from state `s`:
every step whose handle ref is non-null, in source order. -/
def expectedSteps (s : SessionState) : List TeardownStep :=
  (if s.sessionRef then [TeardownStep.closeSession] else [])
    ++ (if s.mediaStreamRef then [TeardownStep.stopTracks] else [])
    ++ (if s.processorRef then [TeardownStep.disconnectNode] else [])
    ++ (if s.audioContextRef then [TeardownStep.closeContext] else [])

/-- Where a `connect()` call can fail, in source order: the missing API-key
check throws before anything else; `getUserMedia` can reject after the audio
context was created and stored; `ai.live.connect` can reject after the
stream and processor were stored; otherwise the session opens. -/
inductive ConnectOutcome
  | noApiKey
  | micFail (raw : String)
  | liveConnectFail (raw : String)
  | success
  deriving DecidableEq

/-- The `catch` block of `connect()`: `e.message || "セッションの開始に失敗しました。"`,
then the `GetUserMedia` substring test rewrites the message into the
microphone-permission message. -/
def connectCatchMsg (raw : String) : String :=
  let m := if raw = "" then "セッションの開始に失敗しました。" else raw
  if (m.splitOn "GetUserMedia").length ≠ 1 then
    "マイクへのアクセスが拒否されました。設定を確認してください。"
  else m

/-- `connect()` with a given failure point.  Every failure lands in the
`catch` block, which sets the error message and status `ERROR` but nulls
**no** handle ref: refs acquired before the failure stay non-null.  On
success the `onopen` callback sets `RECORDING` and the awaited session is
stored in `sessionRef`. -/
def connect (s : SessionState) (oc : ConnectOutcome) : SessionState :=
  match oc with
  | ConnectOutcome.noApiKey =>
      { s with error := some (connectCatchMsg "API Keyが設定されていません。"),
               status := SessionStatus.ERROR }
  | ConnectOutcome.micFail raw =>
      { s with status := SessionStatus.ERROR,
               error := some (connectCatchMsg raw),
               isPaused := false,
               audioAccumulator := [],
               audioContextRef := true }
  | ConnectOutcome.liveConnectFail raw =>
      { s with status := SessionStatus.ERROR,
               error := some (connectCatchMsg raw),
               isPaused := false,
               audioAccumulator := [],
               audioContextRef := true,
               mediaStreamRef := true,
               processorRef := true }
  | ConnectOutcome.success =>
      { s with status := SessionStatus.RECORDING,
               error := none,
               isPaused := false,
               audioAccumulator := [],
               audioContextRef := true,
               mediaStreamRef := true,
               processorRef := true,
               sessionRef := true }

/-! ## Minutes generation (`generateMinutes`, hook lines 266–335) -/

/-- One action item of the structured minutes schema (`types.ts`). -/
structure ActionItem where
  assignee : String
  task : String
  dueDate : Option String
  deriving DecidableEq

/-- The structured minutes document (`MeetingMinutes` in `types.ts`);
topics are (title, details) pairs. -/
structure MeetingMinutes where
  title : String
  date : String
  attendees : List String
  summary : String
  topics : List (String × String)
  decisions : List String
  actionItems : List ActionItem
  deriving DecidableEq

/-- The code points removed by JavaScript's `String.prototype.trim`:
WhiteSpace (TAB, VT, FF, SP, NBSP, ZWNBSP and the Unicode
space-separator category) and LineTerminator (LF, CR, LS, PS). -/
def isJsWhitespace (c : Char) : Bool :=
  c.toNat ∈ [9, 10, 11, 12, 13, 32, 160, 0x1680,
    0x2000, 0x2001, 0x2002, 0x2003, 0x2004, 0x2005, 0x2006, 0x2007,
    0x2008, 0x2009, 0x200A, 0x2028, 0x2029, 0x202F, 0x205F, 0x3000, 0xFEFF]

/-- `s.trim()`: drop leading and trailing JavaScript whitespace. -/
def jsTrim (s : String) : String :=
  String.mk (((s.toList.dropWhile isJsWhitespace).reverse.dropWhile isJsWhitespace).reverse)

/-- The `fullText` computation at the top of `generateMinutes()`: keep the
items whose trimmed text is non-empty, render each as
`発言者: ${t.text}`, and join with newlines. -/
def fullTextOf (transcript : List TranscriptItem) : String :=
  String.intercalate "\n"
    ((transcript.filter (fun t => jsTrim t.text != "")).map (fun t => "発言者: " ++ t.text))

/-- `generateMinutes()`.  The external one-shot generation call is the
oracle argument: `some m` for a successful parsed response, `none` for a
thrown/failed request.  Returns the hook state after the call, the returned
minutes, and whether an external generation request was issued at all.
When the joined filtered transcript text is blank the function returns
`null` before building the client or sending anything. -/
def generateMinutes (s : SessionState) (oracle : Option MeetingMinutes) :
    SessionState × Option MeetingMinutes × Bool :=
  let fullText := fullTextOf s.transcript
  if jsTrim fullText = "" then (s, none, false)
  else
    match oracle with
    | some m => (s, some m, true)
    | none => ({ s with error := some "議事録の生成に失敗しました。" }, none, true)

/-! # Theorems -/

/-! ## Shared helper lemmas -/

/-- Output length of the resampler when the rates differ (helper shared by
the resampler claims). -/
theorem resample_length_ne (buffer : List ℚ) (inputRate outputRate : ℚ)
    (hne : inputRate ≠ outputRate) :
    (resampleBuffer buffer inputRate outputRate).length
      = (⌊(buffer.length : ℚ) * outputRate / inputRate⌋).toNat := by
  rw [resampleBuffer, if_neg hne]
  rw [List.length_map, List.length_range, div_div_eq_mul_div]

/-! ## C8: resampler output length -/

/-- Claim C8: for every input buffer and positive source and target rates
with source ≠ target, the resampled output length equals
`floor(input.length * targetRate / sourceRate)` (real-valued arithmetic
modelled in ℚ). -/
theorem C8_resampler_length (buffer : List ℚ) (inputRate outputRate : ℚ)
    (h1 : 0 < inputRate) (h2 : 0 < outputRate) (hne : inputRate ≠ outputRate) :
    (resampleBuffer buffer inputRate outputRate).length
      = (⌊(buffer.length : ℚ) * outputRate / inputRate⌋).toNat :=
  resample_length_ne buffer inputRate outputRate hne

/-- Witness for C8: a 3-sample buffer downsampled 48000 → 16000 Hz has
length `⌊3 · 16000 / 48000⌋ = 1`. -/
theorem C8_resampler_length_witness :
    0 < (48000:ℚ) ∧ 0 < (16000:ℚ) ∧ (48000:ℚ) ≠ 16000 ∧
      (resampleBuffer [0, 0, 0] 48000 16000).length
        = (⌊(([(0:ℚ), 0, 0].length : ℚ)) * 16000 / 48000⌋).toNat ∧
      (resampleBuffer [0, 0, 0] 48000 16000).length = 1 := by
  refine ⟨by norm_num, by norm_num, by norm_num, ?_, ?_⟩
  · exact C8_resampler_length [0, 0, 0] 48000 16000 (by norm_num) (by norm_num) (by norm_num)
  · rw [C8_resampler_length [0, 0, 0] 48000 16000 (by norm_num) (by norm_num) (by norm_num)]
    norm_num

/-! ## C7: resampler on a single-sample buffer -/

/-- Counterexample to claim C7 as stated: upsampling a single-sample buffer
from 8000 Hz to 16000 Hz produces a buffer of length 2, not ≤ 1 (the source
computes `newLength = floor(1 / (8000/16000)) = 2`; all element reads are
guarded, so it still does not throw). -/
theorem C7_counterexample :
    ¬ ((resampleBuffer [(0:ℚ)] 8000 16000).length ≤ 1) := by
  have h : (resampleBuffer [(0:ℚ)] 8000 16000).length = 2 := by
    rw [resample_length_ne [(0:ℚ)] 8000 16000 (by norm_num)]
    norm_num
    rfl
  omega

/-- Claim C7 as amended: for a single-sample buffer and positive rates the
resampler is total (never throws: every buffer access in the loop is
`|| 0`-guarded or bounds-checked, and the embedding is a total function)
and returns a buffer of length 1 for equal rates and
`⌊targetRate / sourceRate⌋` otherwise — which is ≤ 1 whenever
`targetRate < 2 · sourceRate`, but ≥ 2 when upsampling to at least double
the rate. -/
theorem C7_amended (x inputRate outputRate : ℚ)
    (h1 : 0 < inputRate) (h2 : 0 < outputRate) :
    (resampleBuffer [x] inputRate outputRate).length
      = (if inputRate = outputRate then 1 else (⌊outputRate / inputRate⌋).toNat)
    ∧ (outputRate < 2 * inputRate → (resampleBuffer [x] inputRate outputRate).length ≤ 1) := by
  have hlen : (resampleBuffer [x] inputRate outputRate).length
      = if inputRate = outputRate then 1 else (⌊outputRate / inputRate⌋).toNat := by
    by_cases hne : inputRate = outputRate
    · simp [resampleBuffer, hne]
    · rw [if_neg hne, resample_length_ne [x] inputRate outputRate hne]
      norm_num
  refine ⟨hlen, fun hlt => ?_⟩
  rw [hlen]
  split_ifs with h
  · exact le_refl 1
  · have hq : outputRate / inputRate < 2 := by
      rw [div_lt_iff₀ h1]; linarith
    have hfl : ⌊outputRate / inputRate⌋ < 2 := Int.floor_lt.mpr (by exact_mod_cast hq)
    have h1' : ⌊outputRate / inputRate⌋ ≤ 1 := by omega
    calc (⌊outputRate / inputRate⌋).toNat ≤ (1 : ℤ).toNat := Int.toNat_le_toNat h1'
      _ = 1 := rfl

/-- Witness for C7 (amended): downsampling a single sample 32000 → 16000 Hz
gives length `⌊16000/32000⌋.toNat = 0 ≤ 1`. -/
theorem C7_amended_witness :
    0 < (32000:ℚ) ∧ 0 < (16000:ℚ) ∧ (16000:ℚ) < 2 * 32000 ∧
      (resampleBuffer [(1:ℚ)] 32000 16000).length ≤ 1 :=
  ⟨by norm_num, by norm_num, by norm_num,
    (C7_amended 1 32000 16000 (by norm_num) (by norm_num)).2 (by norm_num)⟩

/-- Unfolding lemma for `createPcmSample` in terms of the named clamp. -/
theorem createPcmSample_eq (y : ℚ) :
    createPcmSample y
      = if clampSample y < 0 then truncToward0 (clampSample y * 32768)
        else truncToward0 (clampSample y * 32767) := rfl

/-! ## C9: PCM16 encoding -/

/-- Claim C9: each sample is first clamped to `[-1, 1]`, then a negative
clamped value is scaled by 32768 and a non-negative one by 32767; the
result always fits the signed 16-bit range (so the `Int16Array` store wraps
nothing), and in particular `1.0` encodes to `32767` (not 32768) and
`-1.0` to `-32768`. -/
theorem C9_pcm_encoding (x : ℚ) :
    (-32768 ≤ createPcmSample x ∧ createPcmSample x ≤ 32767)
    ∧ (clampSample x < 0 → createPcmSample x = truncToward0 (clampSample x * 32768))
    ∧ (0 ≤ clampSample x → createPcmSample x = truncToward0 (clampSample x * 32767))
    ∧ createPcmSample 1 = 32767 ∧ createPcmSample (-1) = -32768 := by
  have hlo : (-1 : ℚ) ≤ clampSample x := le_max_left _ _
  have hhi : clampSample x ≤ 1 := max_le (by norm_num) (min_le_left _ _)
  have hrange : -32768 ≤ createPcmSample x ∧ createPcmSample x ≤ 32767 := by
    rw [createPcmSample_eq]
    split_ifs with hs
    · have hq0 : clampSample x * 32768 < 0 := mul_neg_of_neg_of_pos hs (by norm_num)
      have hqlo : (-32768 : ℚ) ≤ clampSample x * 32768 := by nlinarith
      rw [truncToward0, if_neg (not_le.mpr hq0)]
      constructor
      · have hcast : (-32768 : ℚ) ≤ (⌈clampSample x * 32768⌉ : ℚ) :=
          le_trans hqlo (Int.le_ceil _)
        exact_mod_cast hcast
      · have : ⌈clampSample x * 32768⌉ ≤ (0 : ℤ) := Int.ceil_le.mpr (by exact_mod_cast hq0.le)
        omega
    · push_neg at hs
      have hq0 : (0 : ℚ) ≤ clampSample x * 32767 := mul_nonneg hs (by norm_num)
      have hqhi : clampSample x * 32767 ≤ (32767 : ℚ) := by nlinarith
      rw [truncToward0, if_pos hq0]
      constructor
      · have : (0 : ℤ) ≤ ⌊clampSample x * 32767⌋ := Int.floor_nonneg.mpr hq0
        omega
      · have hcast : (⌊clampSample x * 32767⌋ : ℚ) ≤ (32767 : ℚ) :=
          le_trans (Int.floor_le _) hqhi
        exact_mod_cast hcast
  refine ⟨hrange, fun hs => ?_, fun hs => ?_, ?_, ?_⟩
  · rw [createPcmSample_eq, if_pos hs]
  · rw [createPcmSample_eq, if_neg (not_lt.mpr hs)]
  · have h1 : clampSample (1:ℚ) = 1 := by
      rw [clampSample]; norm_num
    rw [createPcmSample_eq, h1]
    norm_num [truncToward0]
  · have h1 : clampSample (-1:ℚ) = -1 := by
      rw [clampSample]; norm_num
    rw [createPcmSample_eq, h1]
    norm_num [truncToward0]
    rw [show ((-32768:ℚ)) = ((-32768:ℤ) : ℚ) by norm_num]
    exact Int.ceil_intCast _

/-- Witness for C9: at `x = 1/2` the clamp is non-negative and the sample
encodes through the 32767 branch. -/
theorem C9_pcm_encoding_witness :
    0 ≤ clampSample (1/2 : ℚ)
      ∧ createPcmSample (1/2 : ℚ) = truncToward0 (clampSample (1/2 : ℚ) * 32767) := by
  have h0 : 0 ≤ clampSample (1/2 : ℚ) := by rw [clampSample]; norm_num
  exact ⟨h0, (C9_pcm_encoding (1/2 : ℚ)).2.2.1 h0⟩

/-! ## C1: chunk accumulator -/

/-- Characterization of one accumulator update: when the appended buffer
reaches the 2048-sample threshold the **whole** buffer is emitted and the
residual becomes empty; otherwise nothing is emitted. -/
theorem accumulateBlock_eq (acc block : List ℚ) :
    accumulateBlock acc block
      = if 2048 ≤ acc.length + block.length then ([], some (acc ++ block))
        else (acc ++ block, none) := by
  rw [accumulateBlock]
  simp [List.length_append]

/-- Invariant of the accumulator drive: starting from a residual shorter
than the threshold and a trace of chunks each at least threshold-sized,
both properties persist. -/
theorem foldl_accumStep_inv (blocks : List (List ℚ)) (acc : List ℚ)
    (chunks : List (List ℚ))
    (hacc : acc.length < 2048) (hch : ∀ c ∈ chunks, 2048 ≤ c.length) :
    (blocks.foldl accumStep (acc, chunks)).1.length < 2048
    ∧ ∀ c ∈ (blocks.foldl accumStep (acc, chunks)).2, 2048 ≤ c.length := by
  induction blocks generalizing acc chunks with
  | nil => exact ⟨hacc, hch⟩
  | cons b bs ih =>
      rw [List.foldl_cons]
      by_cases hth : 2048 ≤ acc.length + b.length
      · have hstep : accumStep (acc, chunks) b = ([], chunks ++ [acc ++ b]) := by
          rw [accumStep, accumulateBlock_eq]
          rw [if_pos hth]
          simp [Option.toList]
        rw [hstep]
        refine ih [] (chunks ++ [acc ++ b]) (by norm_num) ?_
        intro c hc
        rcases List.mem_append.mp hc with h | h
        · exact hch c h
        · rcases List.mem_singleton.mp h with rfl
          simpa [List.length_append] using hth
      · have hstep : accumStep (acc, chunks) b = (acc ++ b, chunks) := by
          rw [accumStep, accumulateBlock_eq]
          rw [if_neg hth]
          simp [Option.toList]
        rw [hstep]
        refine ih (acc ++ b) chunks ?_ hch
        rw [List.length_append]
        omega

/-- Counterexample to claim C1 as stated: three callbacks each contributing
1000 resampled samples produce **one chunk of 3000 samples and an empty
residual** — not a 2048-sample chunk with a 952-sample residual — because
the source sends the entire accumulated buffer and resets it to empty. -/
theorem C1_counterexample :
    (runBlocks [List.replicate 1000 (0:ℚ), List.replicate 1000 0,
        List.replicate 1000 0]).2.map List.length = [3000]
    ∧ (runBlocks [List.replicate 1000 (0:ℚ), List.replicate 1000 0,
        List.replicate 1000 0]).1.length = 0 := by
  have h1 : accumStep ([], []) (List.replicate 1000 (0:ℚ))
      = (List.replicate 1000 (0:ℚ), []) := by
    rw [accumStep, accumulateBlock_eq]
    rw [if_neg (by simp only [List.length_nil, List.length_replicate]; norm_num)]
    rfl
  have h2 : accumStep (List.replicate 1000 (0:ℚ), []) (List.replicate 1000 (0:ℚ))
      = (List.replicate 1000 (0:ℚ) ++ List.replicate 1000 0, []) := by
    rw [accumStep, accumulateBlock_eq]
    rw [if_neg (by simp only [List.length_replicate]; norm_num)]
    rfl
  have h3 : accumStep (List.replicate 1000 (0:ℚ) ++ List.replicate 1000 0, [])
        (List.replicate 1000 (0:ℚ))
      = ([], [List.replicate 1000 (0:ℚ) ++ List.replicate 1000 0
          ++ List.replicate 1000 0]) := by
    rw [accumStep, accumulateBlock_eq]
    rw [if_pos (by simp only [List.length_append, List.length_replicate]; norm_num)]
    rfl
  rw [runBlocks, List.foldl_cons, h1, List.foldl_cons, h2, List.foldl_cons, h3,
    List.foldl_nil]
  refine ⟨?_, rfl⟩
  simp only [List.map_cons, List.map_nil, List.length_append, List.length_replicate]

/-- Claim C1 as amended: when appending a resampled block makes the
accumulator reach the 2048-sample threshold, the **entire** accumulated
buffer (2048 samples or more, not exactly 2048) is emitted as one chunk and
the residual is reset to empty; otherwise the block is retained.  Between
emissions the residual length is always < 2048, and every emitted chunk has
length ≥ 2048. -/
theorem C1_amended (blocks : List (List ℚ)) :
    (runBlocks blocks).1.length < 2048
    ∧ (∀ c ∈ (runBlocks blocks).2, 2048 ≤ c.length)
    ∧ (∀ acc block, accumulateBlock acc block
        = if 2048 ≤ acc.length + block.length then ([], some (acc ++ block))
          else (acc ++ block, none)) := by
  have h := foldl_accumStep_inv blocks [] [] (by norm_num) (by intro c hc; cases hc)
  exact ⟨h.1, h.2, accumulateBlock_eq⟩

/-- Witness for C1 (amended): a single 2048-sample callback emits a chunk of
length ≥ 2048 and resets the residual. -/
theorem C1_amended_witness :
    (runBlocks [List.replicate 2048 (0:ℚ)]).1.length < 2048
    ∧ (List.replicate 2048 (0:ℚ) ∈ (runBlocks [List.replicate 2048 (0:ℚ)]).2
        → 2048 ≤ (List.replicate 2048 (0:ℚ)).length)
    ∧ accumulateBlock [] [(0:ℚ)] = ([(0:ℚ)], none) := by
  refine ⟨(C1_amended [List.replicate 2048 (0:ℚ)]).1,
    fun hmem => (C1_amended [List.replicate 2048 (0:ℚ)]).2.1 _ hmem, ?_⟩
  rw [(C1_amended [List.replicate 2048 (0:ℚ)]).2.2 [] [(0:ℚ)]]
  norm_num

/-! ## C10: generateMinutes on a blank transcript -/

/-- Claim C10: if every transcript item's text is empty or whitespace-only,
`generateMinutes()` returns `null` without issuing an external generation
request (third component `false`) and without touching the session state —
transcript, status and error included (first component `s` unchanged). -/
theorem C10_generateMinutes_blank (s : SessionState) (oracle : Option MeetingMinutes)
    (h : ∀ t ∈ s.transcript, jsTrim t.text = "") :
    generateMinutes s oracle = (s, none, false) := by
  have hfilter : s.transcript.filter (fun t => jsTrim t.text != "") = [] := by
    rw [List.filter_eq_nil_iff]
    intro t ht
    simp [h t ht]
  have hfull : fullTextOf s.transcript = "" := by
    rw [fullTextOf, hfilter]
    rfl
  rw [generateMinutes.eq_def, hfull]
  rfl

/-- Witness for C10: a transcript holding one single-space item is
whitespace-only, and `generateMinutes` is a no-op returning `null`. -/
theorem C10_generateMinutes_blank_witness :
    (∀ t ∈ ({ initialState with
        transcript := [⟨"1", Role.user, " ", 0, true⟩] } : SessionState).transcript,
      jsTrim t.text = "")
    ∧ generateMinutes
        { initialState with transcript := [⟨"1", Role.user, " ", 0, true⟩] } none
      = ({ initialState with transcript := [⟨"1", Role.user, " ", 0, true⟩] }, none, false) := by
  have h : ∀ t ∈ ({ initialState with
      transcript := [⟨"1", Role.user, " ", 0, true⟩] } : SessionState).transcript,
      jsTrim t.text = "" := by
    intro t ht
    rcases List.mem_singleton.mp ht with rfl
    decide
  exact ⟨h, C10_generateMinutes_blank _ none h⟩

/-! ## Disconnect characterization lemmas -/

/-- When `disconnect()` returns without throwing, its final state has every
handle nulled, the paused flag cleared, the accumulator emptied, the volume
reset, and the status advanced to `COMPLETED` exactly from
`RECORDING`/`PAUSED`. -/
theorem disconnect_state_of_not_thrown (b : TeardownBehavior) (s : SessionState)
    (h : (disconnect b s).thrown = false) :
    (disconnect b s).state
      = { s with
          sessionRef := false, mediaStreamRef := false, processorRef := false,
          audioContextRef := false, isPaused := false, audioAccumulator := [],
          status := (if s.status = SessionStatus.RECORDING ∨ s.status = SessionStatus.PAUSED
            then SessionStatus.COMPLETED else s.status),
          volume := 0 } := by
  obtain ⟨st, sr, ac, ms, pr, ip, aa, vol, er, tr, ct⟩ := s
  obtain ⟨cf, sf, nf, xf⟩ := b
  simp only [disconnect, disconnectStep3, disconnectStep4] at h ⊢
  cases ms <;> cases sf <;> cases pr <;> cases nf <;> simp_all

/-- When neither `track.stop()` nor `processor.disconnect()` throws,
`disconnect()` returns normally and invokes exactly the steps whose handles
are non-null, in source order — regardless of whether `session.close()`
throws or the context-close promise rejects. -/
theorem disconnect_attempted_of_benign (b : TeardownBehavior) (s : SessionState)
    (h2 : b.stopFails = false) (h3 : b.nodeDisconnectFails = false) :
    (disconnect b s).thrown = false
    ∧ (disconnect b s).attempted = expectedSteps s := by
  obtain ⟨st, sr, ac, ms, pr, ip, aa, vol, er, tr, ct⟩ := s
  obtain ⟨cf, sf, nf, xf⟩ := b
  cases h2
  cases h3
  cases sr <;> cases ms <;> cases pr <;> cases ac <;>
    simp [disconnect, disconnectStep3, disconnectStep4, expectedSteps]

/-! ## C6: teardown failure tolerance -/

/-- Counterexample to claim C6 as stated: if `track.stop()` throws during
`disconnect()` (step 2), the exception propagates out of `disconnect()`
(`thrown = true`) and the later steps — disconnecting the processing node
and closing the audio context — are never attempted, because only the
session-close step is wrapped in `try/catch` in the source. -/
theorem C6_counterexample :
    (disconnect ⟨false, true, false, false⟩
        { initialState with
          sessionRef := true, audioContextRef := true,
          mediaStreamRef := true, processorRef := true,
          status := SessionStatus.RECORDING }).thrown = true
    ∧ TeardownStep.disconnectNode ∉
        (disconnect ⟨false, true, false, false⟩
          { initialState with
            sessionRef := true, audioContextRef := true,
            mediaStreamRef := true, processorRef := true,
            status := SessionStatus.RECORDING }).attempted
    ∧ TeardownStep.closeContext ∉
        (disconnect ⟨false, true, false, false⟩
          { initialState with
            sessionRef := true, audioContextRef := true,
            mediaStreamRef := true, processorRef := true,
            status := SessionStatus.RECORDING }).attempted := by
  refine ⟨rfl, ?_, ?_⟩ <;> decide

/-- Claim C6 as amended: a failure of `session.close()` (swallowed by its
`try/catch`) or of the asynchronous `audioContext.close()` promise
(consumed by `.catch`) is suppressed and every remaining release step still
runs, in source order; but the amendment excludes synchronous failures of
`track.stop()` and `processor.disconnect()`, which the source leaves
unguarded and which abort the remaining steps (see the counterexample). -/
theorem C6_amended (s : SessionState) (b : TeardownBehavior)
    (h2 : b.stopFails = false) (h3 : b.nodeDisconnectFails = false) :
    (disconnect b s).thrown = false
    ∧ (disconnect b s).attempted = expectedSteps s :=
  disconnect_attempted_of_benign b s h2 h3

/-- Witness for C6 (amended): with all handles live, `session.close()`
throwing and the context-close promise rejecting, `disconnect()` still
returns normally and attempts all four steps. -/
theorem C6_amended_witness :
    (⟨true, false, false, true⟩ : TeardownBehavior).stopFails = false
    ∧ (⟨true, false, false, true⟩ : TeardownBehavior).nodeDisconnectFails = false
    ∧ (disconnect ⟨true, false, false, true⟩
        { initialState with
          sessionRef := true, audioContextRef := true,
          mediaStreamRef := true, processorRef := true,
          status := SessionStatus.RECORDING }).thrown = false
    ∧ (disconnect ⟨true, false, false, true⟩
        { initialState with
          sessionRef := true, audioContextRef := true,
          mediaStreamRef := true, processorRef := true,
          status := SessionStatus.RECORDING }).attempted
      = expectedSteps
        { initialState with
          sessionRef := true, audioContextRef := true,
          mediaStreamRef := true, processorRef := true,
          status := SessionStatus.RECORDING } :=
  ⟨rfl, rfl,
    (C6_amended _ ⟨true, false, false, true⟩ rfl rfl).1,
    (C6_amended _ ⟨true, false, false, true⟩ rfl rfl).2⟩

/-! ## C5: no-op transitions and reentrant disconnect -/

/-- Claim C5: `pause()` outside `RECORDING` and `resume()` outside `PAUSED`
change nothing (state, including the paused flag, is returned untouched);
and once a `disconnect()` call has returned normally, its status is
`COMPLETED` whenever the call was made from `RECORDING` or `PAUSED`, and a
second `disconnect()` — under any teardown behavior — does not throw and
leaves the state exactly as the first call left it. -/
theorem C5_noop_and_reentrant (s : SessionState) (b1 b2 : TeardownBehavior) :
    (s.status ≠ SessionStatus.RECORDING → pause s = s)
    ∧ (s.status ≠ SessionStatus.PAUSED → resume s = s)
    ∧ ((disconnect b1 s).thrown = false →
        ((s.status = SessionStatus.RECORDING ∨ s.status = SessionStatus.PAUSED)
            → (disconnect b1 s).state.status = SessionStatus.COMPLETED)
        ∧ (disconnect b2 (disconnect b1 s).state).thrown = false
        ∧ (disconnect b2 (disconnect b1 s).state).state = (disconnect b1 s).state) := by
  refine ⟨fun h => by rw [pause, if_neg h], fun h => by rw [resume, if_neg h], fun h1 => ?_⟩
  have hs1 := disconnect_state_of_not_thrown b1 s h1
  refine ⟨fun hrp => ?_, ?_, ?_⟩
  · rw [hs1]
    simp [hrp]
  · rw [hs1]
    simp [disconnect, disconnectStep3, disconnectStep4]
  · rw [hs1]
    obtain ⟨st, sr, ac, ms, pr, ip, aa, vol, er, tr, ct⟩ := s
    cases st <;> simp [disconnect, disconnectStep3, disconnectStep4]

/-- Witness for C5: from the post-connect `RECORDING` state, the first
benign `disconnect()` completes with status `COMPLETED` and the second is a
throw-free no-op. -/
theorem C5_noop_and_reentrant_witness :
    ({ initialState with status := SessionStatus.COMPLETED } : SessionState).status
        ≠ SessionStatus.RECORDING
    ∧ pause { initialState with status := SessionStatus.COMPLETED }
        = { initialState with status := SessionStatus.COMPLETED }
    ∧ (disconnect benignTeardown
        { initialState with
          status := SessionStatus.RECORDING,
          sessionRef := true, audioContextRef := true, mediaStreamRef := true,
          processorRef := true }).thrown = false
    ∧ (disconnect benignTeardown
        { initialState with
          status := SessionStatus.RECORDING,
          sessionRef := true, audioContextRef := true, mediaStreamRef := true,
          processorRef := true }).state.status = SessionStatus.COMPLETED
    ∧ (disconnect benignTeardown
        (disconnect benignTeardown
          { initialState with
            status := SessionStatus.RECORDING,
            sessionRef := true, audioContextRef := true, mediaStreamRef := true,
            processorRef := true }).state).thrown = false := by
  have hthrown : (disconnect benignTeardown
      { initialState with
        status := SessionStatus.RECORDING,
        sessionRef := true, audioContextRef := true, mediaStreamRef := true,
        processorRef := true }).thrown = false := rfl
  have h := C5_noop_and_reentrant
    { initialState with
      status := SessionStatus.RECORDING,
      sessionRef := true, audioContextRef := true, mediaStreamRef := true,
      processorRef := true } benignTeardown benignTeardown
  refine ⟨by decide, ?_, hthrown, ?_, ?_⟩
  · exact (C5_noop_and_reentrant
      { initialState with status := SessionStatus.COMPLETED }
      benignTeardown benignTeardown).1 (by decide)
  · exact ((h.2.2) hthrown).1 (Or.inl rfl)
  · exact ((h.2.2) hthrown).2.1

/-! ## C2: handle/status correlation -/

/-- Counterexample to claim C2 as stated: when `getUserMedia` rejects
during `connect()` (after the audio context was created and stored), the
`catch` block sets status `ERROR` but nulls no ref, so the audio-context
handle is still non-null in the resulting `ERROR` state — the handles are
not 「all null again」 after this failure path, and non-nullness does not
coincide with status ∈ {CONNECTING, RECORDING, PAUSED}. -/
theorem C2_counterexample :
    (connect initialState (ConnectOutcome.micFail "GetUserMedia denied")).status
        = SessionStatus.ERROR
    ∧ (connect initialState (ConnectOutcome.micFail "GetUserMedia denied")).audioContextRef
        = true :=
  ⟨rfl, rfl⟩

/-- Claim C2 as amended: after a successful `connect()` the status is
`RECORDING` and the remote-session, audio-context, capture-stream and
processing-node handles are all non-null; after a `disconnect()` that
returns normally, all four handles are null; but a `connect()` failure
occurring after handle acquisition (for example a microphone denial) sets
status `ERROR` while leaving the already-acquired audio-context handle
non-null. -/
theorem C2_amended (s : SessionState) (b : TeardownBehavior) (raw : String) :
    ((connect s ConnectOutcome.success).status = SessionStatus.RECORDING
      ∧ (connect s ConnectOutcome.success).sessionRef = true
      ∧ (connect s ConnectOutcome.success).audioContextRef = true
      ∧ (connect s ConnectOutcome.success).mediaStreamRef = true
      ∧ (connect s ConnectOutcome.success).processorRef = true)
    ∧ ((disconnect b s).thrown = false →
        (disconnect b s).state.sessionRef = false
        ∧ (disconnect b s).state.audioContextRef = false
        ∧ (disconnect b s).state.mediaStreamRef = false
        ∧ (disconnect b s).state.processorRef = false)
    ∧ ((connect s (ConnectOutcome.micFail raw)).status = SessionStatus.ERROR
        ∧ (connect s (ConnectOutcome.micFail raw)).audioContextRef = true) := by
  refine ⟨⟨rfl, rfl, rfl, rfl, rfl⟩, fun h => ?_, rfl, rfl⟩
  rw [disconnect_state_of_not_thrown b s h]
  exact ⟨rfl, rfl, rfl, rfl⟩

/-- Witness for C2 (amended): for the initial state and the benign teardown
behavior the first disconnect returns normally, so all handles are null
afterwards. -/
theorem C2_amended_witness :
    (disconnect benignTeardown initialState).thrown = false
    ∧ (disconnect benignTeardown initialState).state.sessionRef = false
    ∧ (disconnect benignTeardown initialState).state.audioContextRef = false
    ∧ (disconnect benignTeardown initialState).state.mediaStreamRef = false
    ∧ (disconnect benignTeardown initialState).state.processorRef = false :=
  ⟨rfl,
    ((C2_amended initialState benignTeardown "x").2.1 rfl).1,
    ((C2_amended initialState benignTeardown "x").2.1 rfl).2.1,
    ((C2_amended initialState benignTeardown "x").2.1 rfl).2.2.1,
    ((C2_amended initialState benignTeardown "x").2.1 rfl).2.2.2⟩

/-! ## Transcript merger helper lemmas -/

/-- If the transcript's last item is not an open user item, the merger
appends a fresh item marked partial. -/
theorem pushOrUpdate_of_not_open (l : List TranscriptItem) (turn : String) (now : Nat)
    (h : lastIsOpenPending l = false) :
    pushOrUpdate l turn now = l ++ [⟨toString now, Role.user, turn, now, true⟩] := by
  rw [pushOrUpdate]
  cases hl : l.getLast? with
  | none => rfl
  | some last =>
      rw [lastIsOpenPending, hl] at h
      simp only [decide_eq_false_iff_not] at h
      show (if last.role = Role.user ∧ last.isPending = true then
          l.dropLast ++ [{ last with text := turn }]
        else l ++ [⟨toString now, Role.user, turn, now, true⟩])
        = l ++ [⟨toString now, Role.user, turn, now, true⟩]
      rw [if_neg h]

/-- If the transcript's last item is an open user item, the merger
overwrites its text in place with the full accumulated turn text. -/
theorem pushOrUpdate_of_open (l : List TranscriptItem) (last : TranscriptItem)
    (turn : String) (now : Nat)
    (hl : l.getLast? = some last) (hrole : last.role = Role.user)
    (hp : last.isPending = true) :
    pushOrUpdate l turn now = l.dropLast ++ [{ last with text := turn }] := by
  rw [pushOrUpdate, hl]
  show (if last.role = Role.user ∧ last.isPending = true then
      l.dropLast ++ [{ last with text := turn }]
    else l ++ [⟨toString now, Role.user, turn, now, true⟩])
    = l.dropLast ++ [{ last with text := turn }]
  rw [if_pos ⟨hrole, hp⟩]

/-- A fragment-only message (non-empty text, no turn completion) received
while the last item is not an open user item appends one new partial item
carrying the accumulated turn text. -/
theorem onmessage_fragment (s : SessionState) (txt : String) (now : Nat)
    (htxt : ¬ txt = "")
    (hlast : lastIsOpenPending s.transcript = false) :
    onmessage s ⟨txt, false, now⟩
      = { s with
          currentTurn := s.currentTurn ++ txt,
          transcript := s.transcript
            ++ [⟨toString now, Role.user, s.currentTurn ++ txt, now, true⟩] } := by
  rw [onmessage]
  simp only [if_neg htxt, if_neg Bool.false_ne_true]
  rw [pushOrUpdate_of_not_open s.transcript _ now hlast]

/-- The open-item test after appending an item only looks at that item. -/
theorem lastIsOpenPending_concat (l : List TranscriptItem) (a : TranscriptItem) :
    lastIsOpenPending (l ++ [a]) = decide (a.role = Role.user ∧ a.isPending = true) := by
  rw [lastIsOpenPending, List.getLast?_concat]

/-! ## C3: fragment merging and turn completion -/

/-- Claim C3: from a state between turns (empty pending turn, last item not
an open partial item), three fragment events "A", "B", "C" followed by one
turn-completion signal leave the transcript extended by exactly one item
whose text is "ABC" and whose partial flag is false (pre-existing items
only have their partial flags cleared, which the completion applies to the
whole list); a subsequent fragment "D" then appends a second, distinct item
marked partial. -/
theorem C3_transcript_merge (s : SessionState) (t1 t2 t3 t4 t5 : Nat)
    (hturn : s.currentTurn = "")
    (hlast : lastIsOpenPending s.transcript = false) :
    (runMessages s [⟨"A", false, t1⟩, ⟨"B", false, t2⟩, ⟨"C", false, t3⟩,
        ⟨"", true, t4⟩]).transcript
      = s.transcript.map (fun it => { it with isPending := false })
        ++ [⟨toString t1, Role.user, "ABC", t1, false⟩]
    ∧ (onmessage (runMessages s [⟨"A", false, t1⟩, ⟨"B", false, t2⟩, ⟨"C", false, t3⟩,
        ⟨"", true, t4⟩]) ⟨"D", false, t5⟩).transcript
      = (runMessages s [⟨"A", false, t1⟩, ⟨"B", false, t2⟩, ⟨"C", false, t3⟩,
        ⟨"", true, t4⟩]).transcript
        ++ [⟨toString t5, Role.user, "D", t5, true⟩] := by
  have h1 : onmessage s ⟨"A", false, t1⟩
      = { s with
          currentTurn := "A",
          transcript := s.transcript ++ [⟨toString t1, Role.user, "A", t1, true⟩] } := by
    rw [onmessage_fragment s "A" t1 (by decide) hlast, hturn]
    rfl
  have h2 : onmessage { s with
        currentTurn := "A",
        transcript := s.transcript ++ [⟨toString t1, Role.user, "A", t1, true⟩] }
      ⟨"B", false, t2⟩
      = { s with
          currentTurn := "AB",
          transcript := s.transcript ++ [⟨toString t1, Role.user, "AB", t1, true⟩] } := by
    rw [onmessage]
    simp only [if_neg (by decide : ¬ ("B" : String) = ""), if_neg Bool.false_ne_true]
    rw [pushOrUpdate_of_open _ ⟨toString t1, Role.user, "A", t1, true⟩ _ t2
      (List.getLast?_concat _) rfl rfl]
    rw [List.dropLast_concat]
    rfl
  have h3 : onmessage { s with
        currentTurn := "AB",
        transcript := s.transcript ++ [⟨toString t1, Role.user, "AB", t1, true⟩] }
      ⟨"C", false, t3⟩
      = { s with
          currentTurn := "ABC",
          transcript := s.transcript ++ [⟨toString t1, Role.user, "ABC", t1, true⟩] } := by
    rw [onmessage]
    simp only [if_neg (by decide : ¬ ("C" : String) = ""), if_neg Bool.false_ne_true]
    rw [pushOrUpdate_of_open _ ⟨toString t1, Role.user, "AB", t1, true⟩ _ t3
      (List.getLast?_concat _) rfl rfl]
    rw [List.dropLast_concat]
    rfl
  have h4 : onmessage { s with
        currentTurn := "ABC",
        transcript := s.transcript ++ [⟨toString t1, Role.user, "ABC", t1, true⟩] }
      ⟨"", true, t4⟩
      = { s with
          currentTurn := "",
          transcript := s.transcript.map (fun it => { it with isPending := false })
            ++ [⟨toString t1, Role.user, "ABC", t1, false⟩] } := by
    rw [onmessage]
    show ({ s with
        currentTurn := "",
        transcript :=
          (s.transcript ++ [(⟨toString t1, Role.user, "ABC", t1, true⟩ : TranscriptItem)]).map
            (fun it => { it with isPending := false }) } : SessionState)
      = ({ s with
        currentTurn := "",
        transcript :=
          s.transcript.map (fun it => { it with isPending := false })
            ++ [(⟨toString t1, Role.user, "ABC", t1, false⟩ : TranscriptItem)] } : SessionState)
    rw [List.map_append]
    rfl
  have hrun : runMessages s [⟨"A", false, t1⟩, ⟨"B", false, t2⟩, ⟨"C", false, t3⟩,
        ⟨"", true, t4⟩]
      = { s with
          currentTurn := "",
          transcript := s.transcript.map (fun it => { it with isPending := false })
            ++ [⟨toString t1, Role.user, "ABC", t1, false⟩] } := by
    rw [runMessages, List.foldl_cons, h1, List.foldl_cons, h2, List.foldl_cons, h3,
      List.foldl_cons, h4, List.foldl_nil]
  refine ⟨by rw [hrun], ?_⟩
  rw [hrun]
  rw [onmessage_fragment _ "D" t5 (by decide) ?_]
  · rfl
  · show lastIsOpenPending (s.transcript.map (fun it => { it with isPending := false })
        ++ [(⟨toString t1, Role.user, "ABC", t1, false⟩ : TranscriptItem)]) = false
    rw [lastIsOpenPending_concat]
    simp

/-- Witness for C3: starting from the empty initial state (empty pending
turn, no last item) the scenario produces the single finalized "ABC" item
and then a distinct partial "D" item. -/
theorem C3_transcript_merge_witness :
    initialState.currentTurn = ""
    ∧ lastIsOpenPending initialState.transcript = false
    ∧ (runMessages initialState [⟨"A", false, 1⟩, ⟨"B", false, 2⟩, ⟨"C", false, 3⟩,
        ⟨"", true, 4⟩]).transcript
      = [⟨toString 1, Role.user, "ABC", 1, false⟩]
    ∧ (onmessage (runMessages initialState [⟨"A", false, 1⟩, ⟨"B", false, 2⟩,
        ⟨"C", false, 3⟩, ⟨"", true, 4⟩]) ⟨"D", false, 5⟩).transcript
      = (runMessages initialState [⟨"A", false, 1⟩, ⟨"B", false, 2⟩, ⟨"C", false, 3⟩,
        ⟨"", true, 4⟩]).transcript ++ [⟨toString 5, Role.user, "D", 5, true⟩] := by
  have h := C3_transcript_merge initialState 1 2 3 4 5 rfl rfl
  exact ⟨rfl, rfl, h.1, h.2⟩

/-! ## C4 helper lemmas -/

/-- The partial flag of the last element after appending. -/
theorem lastPendingFlag_concat (l : List TranscriptItem) (a : TranscriptItem) :
    lastPendingFlag (l ++ [a]) = a.isPending := by
  rw [lastPendingFlag, List.getLast?_concat]

/-- The open-item test holds exactly when the last element exists and is an
open user item. -/
theorem lastIsOpenPending_iff (l : List TranscriptItem) :
    lastIsOpenPending l = true
      ↔ ∃ last, l.getLast? = some last ∧ last.role = Role.user
          ∧ last.isPending = true := by
  rw [lastIsOpenPending]
  cases hl : l.getLast? with
  | none => simp
  | some last => simp

/-- If the last element is not an open user item but all roles are `user`,
then no element of the list is marked partial beyond what `dropLast` says:
the whole list is unmarked. -/
theorem all_not_pending (l : List TranscriptItem)
    (hr : ∀ it ∈ l, it.role = Role.user)
    (hd : ∀ it ∈ l.dropLast, it.isPending = false)
    (ho : lastIsOpenPending l = false) :
    ∀ it ∈ l, it.isPending = false := by
  induction l using List.reverseRecOn with
  | nil => intro it hit; cases hit
  | append_singleton l' a _ih =>
      intro it hit
      rcases List.mem_append.mp hit with h | h
      · exact hd it (by rw [List.dropLast_concat]; exact h)
      · rcases List.mem_singleton.mp h with rfl
        rw [lastIsOpenPending_concat] at ho
        have hrole : it.role = Role.user := hr it hit
        simp [hrole] at ho
        exact ho

/-- `pushOrUpdate` preserves the roles, keeps every non-last element
unmarked, and always leaves the last element marked partial. -/
theorem pushOrUpdate_inv (l : List TranscriptItem) (turn : String) (now : Nat)
    (hr : ∀ it ∈ l, it.role = Role.user)
    (hd : ∀ it ∈ l.dropLast, it.isPending = false) :
    (∀ it ∈ pushOrUpdate l turn now, it.role = Role.user)
    ∧ (∀ it ∈ (pushOrUpdate l turn now).dropLast, it.isPending = false)
    ∧ lastPendingFlag (pushOrUpdate l turn now) = true := by
  by_cases ho : lastIsOpenPending l = true
  · obtain ⟨last, hl, hrole, hp⟩ := (lastIsOpenPending_iff l).mp ho
    rw [pushOrUpdate_of_open l last turn now hl hrole hp]
    refine ⟨?_, ?_, ?_⟩
    · intro it hit
      rcases List.mem_append.mp hit with h | h
      · exact hr it (List.dropLast_subset l h)
      · rcases List.mem_singleton.mp h with rfl
        exact hrole
    · rw [List.dropLast_concat]
      intro it hit
      exact hd it hit
    · rw [lastPendingFlag_concat]
      exact hp
  · have ho' : lastIsOpenPending l = false := by
      revert ho; cases lastIsOpenPending l <;> simp
    rw [pushOrUpdate_of_not_open l turn now ho']
    refine ⟨?_, ?_, by rw [lastPendingFlag_concat]⟩
    · intro it hit
      rcases List.mem_append.mp hit with h | h
      · exact hr it h
      · rcases List.mem_singleton.mp h with rfl
        rfl
    · rw [List.dropLast_concat]
      exact all_not_pending l hr hd ho'

/-- Clearing all partial flags leaves the last flag false. -/
theorem lastPendingFlag_map_finalize (l : List TranscriptItem) :
    lastPendingFlag (l.map (fun it => { it with isPending := false })) = false := by
  induction l using List.reverseRecOn with
  | nil => rfl
  | append_singleton l' a _ih =>
      rw [List.map_append]
      simp only [List.map_cons, List.map_nil]
      rw [lastPendingFlag_concat]

/-- A fragment-only message with non-empty text runs `pushOrUpdate`. -/
theorem onmessage_push (s : SessionState) (tx : String) (now : Nat)
    (h : ¬ tx = "") :
    onmessage s ⟨tx, false, now⟩
      = { s with
          currentTurn := s.currentTurn ++ tx,
          transcript := pushOrUpdate s.transcript (s.currentTurn ++ tx) now } := by
  rw [onmessage]
  simp only [if_neg h, if_neg Bool.false_ne_true]

/-- A message carrying both non-empty text and the turn-completion flag
first runs `pushOrUpdate`, then clears every partial flag and resets the
pending turn. -/
theorem onmessage_push_complete (s : SessionState) (tx : String) (now : Nat)
    (h : ¬ tx = "") :
    onmessage s ⟨tx, true, now⟩
      = { s with
          currentTurn := "",
          transcript := (pushOrUpdate s.transcript (s.currentTurn ++ tx) now).map
            (fun it => { it with isPending := false }) } := by
  rw [onmessage]
  simp only [if_neg h, if_pos rfl, if_true]

/-- One `onmessage` step preserves the merger invariant: every item keeps
the `user` role, every non-last item stays unmarked, and the last item's
partial flag tracks the turn-open status. -/
theorem onmessage_step_inv (s : SessionState) (m : ServerMessage)
    (hr : ∀ it ∈ s.transcript, it.role = Role.user)
    (hd : ∀ it ∈ s.transcript.dropLast, it.isPending = false) :
    (∀ it ∈ (onmessage s m).transcript, it.role = Role.user)
    ∧ (∀ it ∈ (onmessage s m).transcript.dropLast, it.isPending = false)
    ∧ lastPendingFlag (onmessage s m).transcript
        = (if m.turnComplete then false
           else (lastPendingFlag s.transcript || (m.inputTx != ""))) := by
  obtain ⟨tx, tc, now⟩ := m
  by_cases htxt : tx = ""
  · subst htxt
    cases tc with
    | false =>
        have he : onmessage s ⟨"", false, now⟩ = s := rfl
        rw [he]
        exact ⟨hr, hd, by simp⟩
    | true =>
        have he : onmessage s ⟨"", true, now⟩
            = { s with
                transcript := s.transcript.map (fun it => { it with isPending := false }),
                currentTurn := "" } := rfl
        rw [he]
        refine ⟨?_, ?_, ?_⟩
        · intro it hit
          rcases List.mem_map.mp hit with ⟨a, ha, rfl⟩
          exact hr a ha
        · intro it hit
          rcases List.mem_map.mp (List.dropLast_subset _ hit) with ⟨a, _, rfl⟩
          rfl
        · rw [lastPendingFlag_map_finalize]
          simp
  · have hpush := pushOrUpdate_inv s.transcript (s.currentTurn ++ tx) now hr hd
    cases tc with
    | false =>
        rw [onmessage_push s tx now htxt]
        refine ⟨hpush.1, hpush.2.1, ?_⟩
        rw [hpush.2.2]
        simp [htxt]
    | true =>
        rw [onmessage_push_complete s tx now htxt]
        refine ⟨?_, ?_, ?_⟩
        · intro it hit
          rcases List.mem_map.mp hit with ⟨a, ha, rfl⟩
          exact hpush.1 a ha
        · intro it hit
          rcases List.mem_map.mp (List.dropLast_subset _ hit) with ⟨a, _, rfl⟩
          rfl
        · rw [lastPendingFlag_map_finalize]
          simp

/-- The merger invariant propagated along any message sequence, tracking
the turn-open flag through the same fold as `turnOpen`. -/
theorem foldl_onmessage_inv (ms : List ServerMessage) (s : SessionState) (b : Bool)
    (hr : ∀ it ∈ s.transcript, it.role = Role.user)
    (hd : ∀ it ∈ s.transcript.dropLast, it.isPending = false)
    (hb : lastPendingFlag s.transcript = b) :
    (∀ it ∈ (ms.foldl onmessage s).transcript, it.role = Role.user)
    ∧ (∀ it ∈ (ms.foldl onmessage s).transcript.dropLast, it.isPending = false)
    ∧ lastPendingFlag (ms.foldl onmessage s).transcript
        = ms.foldl (fun b m => if m.turnComplete then false else (b || (m.inputTx != ""))) b := by
  induction ms generalizing s b with
  | nil => exact ⟨hr, hd, hb⟩
  | cons m rest ih =>
      rw [List.foldl_cons, List.foldl_cons]
      have hstep := onmessage_step_inv s m hr hd
      exact ih (onmessage s m) _ hstep.1 hstep.2.1 (by rw [hstep.2.2, hb])

/-! ## C4: the partial-item invariant -/

/-- Claim C4: starting from the empty transcript, after any sequence of
partial-text events and turn-completion signals every non-last transcript
item has its partial flag false (so at most one item is partial and it can
only be the last), and the last item's partial flag equals the turn-open
status — a non-empty fragment has arrived since the most recent
turn-completion signal. -/
theorem C4_partial_invariant (ms : List ServerMessage) :
    (∀ it ∈ (runMessages initialState ms).transcript.dropLast, it.isPending = false)
    ∧ lastPendingFlag (runMessages initialState ms).transcript = turnOpen ms := by
  have h := foldl_onmessage_inv ms initialState false
    (by intro it hit; cases hit) (by intro it hit; cases hit) rfl
  exact ⟨h.2.1, by rw [turnOpen]; exact h.2.2⟩

/-- Witness for C4: after a single fragment event the turn is open and the
(only, hence last) item is the sole partial one. -/
theorem C4_partial_invariant_witness :
    (∀ it ∈ (runMessages initialState [⟨"A", false, 7⟩]).transcript.dropLast,
      it.isPending = false)
    ∧ lastPendingFlag (runMessages initialState [⟨"A", false, 7⟩]).transcript
        = turnOpen [⟨"A", false, 7⟩]
    ∧ turnOpen [⟨"A", false, 7⟩] = true :=
  ⟨(C4_partial_invariant [⟨"A", false, 7⟩]).1,
    (C4_partial_invariant [⟨"A", false, 7⟩]).2,
    rfl⟩

end LiveSession
